import Mathlib

/-!
Verification of the go-winio named-pipe and Hyper-V-socket layers.

The definitions below are a shallow embedding of the Go source:

* `pipe.go` — the message-byte pipe adapter (`win32MessageBytePipe.Read`,
  `Write`, `CloseWrite`), the listener accept loop
  (`win32PipeListener.Accept`), the queue-size coercion in `ListenPipe`,
  and the dialer (`tryDialPipe`, `DialPipe`);
* the hvsock transport — the raw `AF_HYPERV` socket address
  (`rawHvsockAddr`), `VsockServiceID`, and `HvsockConn.SetDeadline`;
* the reparse-point codec (modelled from the specification, the
  implementation file being absent from the sources at hand).

Calls into the underlying `win32File` (the overlapped-I/O engine) are
modelled as oracle results passed in as arguments; machine integers are
`Nat` with explicit bounds where they matter.
-/

namespace Winio

/-- Error values that flow through the code paths under verification.
Distinct Go error values are distinct constructors: `eof` is `io.EOF`,
`errMoreData` is `windows.ERROR_MORE_DATA`, `errNoData` is
`windows.ERROR_NO_DATA`, `errPipeBusy` is `windows.ERROR_PIPE_BUSY`,
`pipeWriteClosed` is `errPipeWriteClosed`, `pipeListenerClosed` is
`ErrPipeListenerClosed`, `timeout` is `ErrTimeout`, `ctxDeadlineExceeded`
is `context.DeadlineExceeded`, `pathError e` is an `os.PathError` wrapping
`e`, and `other code` stands for any further Win32 errno. -/
inductive WinErr where
  | eof
  | errMoreData
  | errNoData
  | errPipeBusy
  | pipeWriteClosed
  | pipeListenerClosed
  | timeout
  | ctxDeadlineExceeded
  | pathError (e : WinErr)
  | other (code : Nat)
deriving DecidableEq, Repr

/-- The mutable state of a `win32MessageBytePipe` (pipe.go): the embedded
`win32File` is left abstract, the two booleans are the fields
`writeClosed` and `readEOF`. -/
structure MsgPipeState where
  writeClosed : Bool
  readEOF : Bool
deriving DecidableEq, Repr

/-- `win32MessageBytePipe.Read` (pipe.go lines 178-197).  The result of
the underlying `win32File.Read` call is passed as the oracle argument
`underlying : Nat × Option WinErr` (count and error).  Returns the pair
returned to the caller, the successor state, and whether the underlying
file was invoked. -/
def msgPipeRead (s : MsgPipeState) (underlying : Nat × Option WinErr) :
    (Nat × Option WinErr) × MsgPipeState × Bool :=
  if s.readEOF then
    ((0, some .eof), s, false)
  else
    let n := underlying.1
    let err := underlying.2
    if err = some .eof then
      ((n, some .eof), { s with readEOF := true }, true)
    else if err = some .errMoreData then
      ((n, none), s, true)
    else
      ((n, err), s, true)

/-- `win32MessageBytePipe.CloseWrite` (pipe.go lines 148-162).  The
results of the underlying `win32File.Flush` and zero-byte
`win32File.Write(nil)` calls are the oracle arguments.  Returns the
error returned to the caller, the successor state, and whether any
underlying I/O was performed. -/
def msgPipeCloseWrite (s : MsgPipeState) (flushErr zeroWriteErr : Option WinErr) :
    Option WinErr × MsgPipeState × Bool :=
  if s.writeClosed then
    (some .pipeWriteClosed, s, false)
  else
    match flushErr with
    | some e => (some e, s, true)
    | none =>
      match zeroWriteErr with
      | some e => (some e, s, true)
      | none => (none, { s with writeClosed := true }, true)

/-- `win32MessageBytePipe.Write` (pipe.go lines 166-174).  The result of
the underlying `win32File.Write` call is the oracle argument.  Returns
the pair returned to the caller and whether the underlying file was
invoked. -/
def msgPipeWrite (s : MsgPipeState) (b : List Nat)
    (underlying : Nat × Option WinErr) : (Nat × Option WinErr) × Bool :=
  if s.writeClosed then
    ((0, some .pipeWriteClosed), false)
  else if b.length = 0 then
    ((0, none), false)
  else
    (underlying, true)

/-- A worker response as delivered on an `Accept` caller's response
channel (pipe.go, `acceptResponse`): whether the `f` field is non-nil,
and the `err` field. -/
structure AcceptResponse where
  hasFile : Bool
  err : Option WinErr
deriving DecidableEq, Repr

/-- What `win32PipeListener.Accept` hands back to its caller. -/
inductive AcceptOutcome where
  | conn (messageMode : Bool)
  | listenerClosed
  | failed (e : WinErr)
deriving DecidableEq, Repr

/-- The response-handling loop of `win32PipeListener.Accept` (pipe.go
lines 594-651): each enqueued request is answered by one worker response
from the list; `goto tryAgain` consumes the next response.  `none` means
the caller is still blocked waiting for a response (the supplied list is
exhausted). -/
def acceptLoop (messageMode : Bool) : List AcceptResponse → Option AcceptOutcome
  | [] => none
  | response :: rest =>
    if response.hasFile = false ∧ response.err = none then
      some .listenerClosed
    else if response.err = some .pipeListenerClosed then
      some .listenerClosed
    else if response.err = some .errNoData then
      acceptLoop messageMode rest
    else
      match response.err with
      | some e => some (.failed e)
      | none => some (.conn messageMode)

/-- `PipeConfig` (pipe.go lines 504-534); the security descriptor is
kept abstract as its SDDL conversion does not affect the queue logic. -/
structure PipeConfig where
  securityDescriptor : Option (List Nat)
  messageMode : Bool
  inputBufferSize : Int
  outputBufferSize : Int
  queueSize : Int
deriving DecidableEq, Repr

/-- The zero `PipeConfig{}` that `ListenPipe` substitutes for a nil
config. -/
def zeroPipeConfig : PipeConfig :=
  { securityDescriptor := none
    messageMode := false
    inputBufferSize := 0
    outputBufferSize := 0
    queueSize := 0 }

/-- The observable sizing of a listener as set up by `ListenPipe`: the
capacity of `acceptQueueCh` and the number of `listenerWorker`
goroutines started by `listenerRoutine`. -/
structure ListenerShape where
  acceptQueueCapacity : Int
  workerCount : Int
deriving DecidableEq, Repr

/-- The queue-size computation of `ListenPipe` (pipe.go lines 538-577)
together with `listenerRoutine` (lines 478-501): a nil config becomes
the zero config, a `QueueSize` below one is coerced to one, the accept
queue is buffered to `queueSize` and `listenerRoutine` starts
`queueSize` workers. -/
def listenPipeShape (c : Option PipeConfig) : ListenerShape :=
  let cfg := match c with
    | none => zeroPipeConfig
    | some cfg => cfg
  let queueSize := if cfg.queueSize < 1 then 1 else cfg.queueSize
  { acceptQueueCapacity := queueSize, workerCount := queueSize }

/-- The outcome of one `fs.CreateFile` call inside `tryDialPipe`. -/
inductive DialAttempt where
  | ok
  | fail (e : WinErr)
deriving DecidableEq, Repr

/-- `tryDialPipe` (pipe.go lines 208-233): loop; each iteration first
polls `ctx.Done()` and returns `ctx.Err()` when the context has expired,
else attempts `fs.CreateFile` — success returns the handle, an error
other than `ERROR_PIPE_BUSY` returns it wrapped in an `os.PathError`,
and `ERROR_PIPE_BUSY` sleeps 10 ms and retries.  `attempt i` is the
oracle result of the i-th `CreateFile` call; `fuel` is the number of
iterations the context permits before `Done` is observed, whereupon the
deadline context's `ctx.Err()` is `context.DeadlineExceeded`. -/
def tryDialPipe (attempt : Nat → DialAttempt) : Nat → Nat → Except WinErr Unit
  | _, 0 => .error .ctxDeadlineExceeded
  | i, fuel + 1 =>
    match attempt i with
    | .ok => .ok ()
    | .fail e =>
      if e = .errPipeBusy then tryDialPipe attempt (i + 1) fuel
      else .error (.pathError e)

/-- The absolute deadline computed by `DialPipe` (pipe.go lines
239-244): `time.Now().Add(*timeout)` when a timeout is supplied, else
`time.Now().Add(2 * time.Second)`.  Times are in milliseconds. -/
def dialPipeAbsTimeout (now : Nat) (timeout : Option Nat) : Nat :=
  match timeout with
  | some d => now + d
  | none => now + 2000

/-- `DialPipe` (pipe.go lines 238-252): compute the absolute deadline,
dial through `DialPipeContext`/`tryDialPipe` under a context carrying
that deadline, and map an error satisfying
`errors.Is(err, context.DeadlineExceeded)` to `ErrTimeout`.
`fuelOf d` abstracts the context clock: the number of dial-loop
iterations that run before a context with absolute deadline `d` reports
done. -/
def DialPipe (now : Nat) (timeout : Option Nat) (attempt : Nat → DialAttempt)
    (fuelOf : Nat → Nat) : Except WinErr Unit :=
  match tryDialPipe attempt 0 (fuelOf (dialPipeAbsTimeout now timeout)) with
  | .error e => if e = .ctxDeadlineExceeded then .error .timeout else .error e
  | .ok u => .ok u

/-- `guid.GUID` (pkg/guid, identical to `windows.GUID`): `Data1 : u32`,
`Data2 Data3 : u16`, `Data4 : [8]byte`. -/
structure GUID where
  data1 : Nat
  data2 : Nat
  data3 : Nat
  data4 : List Nat
deriving DecidableEq, Repr

/-- The two bytes of a 16-bit value, little endian. -/
def u16le (v : Nat) : List Nat := [v % 256, v / 256 % 256]

/-- The four bytes of a 32-bit value, little endian. -/
def u32le (v : Nat) : List Nat :=
  [v % 256, v / 256 % 256, v / 65536 % 256, v / 16777216 % 256]

/-- The in-memory bytes of a `guid.GUID` (u32, u16, u16, 8 bytes — 16
bytes total, no padding, natural alignment 4). -/
def guidBytes (g : GUID) : List Nat :=
  u32le g.data1 ++ u16le g.data2 ++ u16le g.data3 ++ g.data4

/-- `afHvSock = 34` — the `AF_HYPERV` address family constant
(tools.go line 459). -/
def afHvSock : Nat := 34

/-- `rawHvsockAddr` (tools.go lines 531-536): u16 family, u16 anonymous
padding field, vm-id GUID, service-id GUID. -/
structure RawHvsockAddr where
  family : Nat
  reserved : Nat
  vmID : GUID
  serviceID : GUID
deriving DecidableEq, Repr

/-- `HvsockAddr` (tools.go lines 526-529). -/
structure HvsockAddr where
  vmID : GUID
  serviceID : GUID
deriving DecidableEq, Repr

/-- `HvsockAddr.raw` (tools.go lines 556-562): family `afHvSock`, the
anonymous field zero, both GUIDs copied. -/
def HvsockAddr.raw (a : HvsockAddr) : RawHvsockAddr :=
  { family := afHvSock, reserved := 0, vmID := a.vmID, serviceID := a.serviceID }

/-- The memory image of a `rawHvsockAddr` as handed to the kernel by
`Sockaddr` (tools.go lines 570-572) with length `unsafe.Sizeof`: every
field of the Go struct is naturally aligned with no padding (u16 at 0,
u16 at 2, 16-byte GUIDs at 4 and 20), so the image is the concatenation
of the fields' little-endian bytes. -/
def rawHvsockAddrBytes (r : RawHvsockAddr) : List Nat :=
  u16le r.family ++ u16le r.reserved ++ guidBytes r.vmID ++ guidBytes r.serviceID

/-- `hvguidVSockServiceTemplate` (tools.go lines 517-523):
00000000-facb-11e6-bd58-64006a7986d3. -/
def hvguidVSockServiceTemplate : GUID :=
  { data1 := 0
    data2 := 0xfacb
    data3 := 0x11e6
    data4 := [0xbd, 0x58, 0x64, 0x00, 0x6a, 0x79, 0x86, 0xd3] }

/-- `VsockServiceID` (tools.go lines 550-554): copy the template GUID
and overwrite `Data1` with the port. -/
def VsockServiceID (port : Nat) : GUID :=
  { hvguidVSockServiceTemplate with data1 := port }

/-- `HvsockConn.SetDeadline` (tools.go lines 959-963): call
`SetReadDeadline` and `SetWriteDeadline`, discard both results, return
nil.  The oracle arguments are the discarded results. -/
def hvsockConnSetDeadline (readRes writeRes : Option WinErr) : Option WinErr :=
  let _ := readRes
  let _ := writeRes
  none

/-- `win32Pipe.SetDeadline` (pipe.go lines 136-141): return the error of
`SetReadDeadline` when it fails, else the result of
`SetWriteDeadline`. -/
def win32PipeSetDeadline (readRes writeRes : Option WinErr) : Option WinErr :=
  match readRes with
  | some e => some e
  | none => writeRes

/-- Modelled from the spec: the reparse-point value (spec §3, §4.1) —
the implementation file (reparse.go) is absent from the sources at hand,
only its tests and callers being present.  A tagged union over symlink
and mount-point, each carrying a target path and, for symlinks, a flag
indicating whether the target is relative.  The target path is kept as
its UTF-16 code units. -/
inductive ReparsePoint where
  | symlink (target : List Nat) (isRelative : Bool)
  | mountPoint (target : List Nat)
deriving DecidableEq, Repr

/-- The symlink reparse tag 0xA000000C (spec §4.1). -/
def reparseTagSymlink : Nat := 0xA000000C

/-- The mount-point reparse tag 0xA0000003 (spec §4.1). -/
def reparseTagMountPoint : Nat := 0xA0000003

/-- UTF-16LE serialization of a list of 16-bit code units. -/
def utf16leBytes : List Nat → List Nat
  | [] => []
  | u :: us => u16le u ++ utf16leBytes us

/-- UTF-16LE deserialization: pair up bytes, little endian. -/
def utf16unitsOfBytes : List Nat → List Nat
  | b0 :: b1 :: rest => (b0 + 256 * b1) :: utf16unitsOfBytes rest
  | _ => []

/-- Read one 16-bit little-endian value off the front of a buffer. -/
def parseU16 : List Nat → Option (Nat × List Nat)
  | b0 :: b1 :: rest => some (b0 + 256 * b1, rest)
  | _ => none

/-- Read one 32-bit little-endian value off the front of a buffer. -/
def parseU32 : List Nat → Option (Nat × List Nat)
  | b0 :: b1 :: b2 :: b3 :: rest =>
    some (b0 + 256 * b1 + 65536 * b2 + 16777216 * b3, rest)
  | _ => none

/-- Modelled from the spec: `EncodeReparsePoint` (spec §4.1).  Layout:
`u32 tag; u16 data-length; u16 reserved;` then the variant payload,
which starts with the four 16-bit fields substitute-name offset,
substitute-name length, print-name offset and print-name length (bytes,
measured from the start of the path buffer); the symlink variant adds a
`u32 flags` with bit 0 = relative.  The emitter writes the substitute
name first, then the print name (same bytes), computes offsets
accordingly, and populates data-length as the total variant payload
length. -/
def EncodeReparsePoint : ReparsePoint → List Nat
  | .symlink target isRelative =>
    let nb := utf16leBytes target
    u32le reparseTagSymlink ++ u16le (12 + 2 * nb.length) ++ u16le 0 ++
      u16le 0 ++ u16le nb.length ++ u16le nb.length ++ u16le nb.length ++
      u32le (if isRelative then 1 else 0) ++ nb ++ nb
  | .mountPoint target =>
    let nb := utf16leBytes target
    u32le reparseTagMountPoint ++ u16le (8 + 2 * nb.length) ++ u16le 0 ++
      u16le 0 ++ u16le nb.length ++ u16le nb.length ++ u16le nb.length ++
      nb ++ nb

/-- Modelled from the spec: the name-extraction step of the decoder
(spec §4.1).  Given the path buffer and the four 16-bit name fields,
fail when a declared name range exceeds the buffer, prefer the
substitute name when non-empty (else the print name), and fail when
UTF-16 decoding fails (an odd byte count). -/
def decodeNameField (pathBuf : List Nat)
    (subOff subLen printOff printLen : Nat) : Option (List Nat) :=
  if subOff + subLen > pathBuf.length ∨ printOff + printLen > pathBuf.length then
    none
  else
    let nameBytes := if subLen ≠ 0 then (pathBuf.drop subOff).take subLen
      else (pathBuf.drop printOff).take printLen
    if nameBytes.length % 2 = 0 then
      some (utf16unitsOfBytes nameBytes)
    else
      none

/-- Modelled from the spec: the symlink variant payload (spec §4.1) —
the four name fields, the `u32 flags` with bit 0 = relative, then the
path buffer of `data-length - 12` bytes; fails when the declared length
exceeds the buffer. -/
def decodeSymlinkPayload (dataLen : Nat) (r2 : List Nat) : Option ReparsePoint :=
  if dataLen < 12 ∨ r2.length < dataLen then
    none
  else do
    let (subOff, r3) ← parseU16 r2
    let (subLen, r4) ← parseU16 r3
    let (printOff, r5) ← parseU16 r4
    let (printLen, r6) ← parseU16 r5
    let (flags, r7) ← parseU32 r6
    let units ← decodeNameField (r7.take (dataLen - 12)) subOff subLen printOff printLen
    some (.symlink units (flags % 2 == 1))

/-- Modelled from the spec: the mount-point variant payload (spec §4.1)
— the four name fields then the path buffer of `data-length - 8` bytes;
fails when the declared length exceeds the buffer. -/
def decodeMountPointPayload (dataLen : Nat) (r2 : List Nat) : Option ReparsePoint :=
  if dataLen < 8 ∨ r2.length < dataLen then
    none
  else do
    let (subOff, r3) ← parseU16 r2
    let (subLen, r4) ← parseU16 r3
    let (printOff, r5) ← parseU16 r4
    let (printLen, r6) ← parseU16 r5
    let units ← decodeNameField (r6.take (dataLen - 8)) subOff subLen printOff printLen
    some (.mountPoint units)

/-- Modelled from the spec: `DecodeReparsePoint` (spec §4.1).  Parses
`u32 tag; u16 data-length; u16 reserved;` then the variant payload;
fails (`none`, the spec's MalformedReparse) when the tag is unknown,
when declared lengths exceed the buffer, or when UTF-16 decoding
fails. -/
def DecodeReparsePoint (buf : List Nat) : Option ReparsePoint := do
  let (tag, r0) ← parseU32 buf
  let (dataLen, r1) ← parseU16 r0
  let (_, r2) ← parseU16 r1
  if tag = reparseTagSymlink then
    decodeSymlinkPayload dataLen r2
  else if tag = reparseTagMountPoint then
    decodeMountPointPayload dataLen r2
  else
    none

/-- The target code units of a reparse point. -/
def reparseTargetUnits : ReparsePoint → List Nat
  | .symlink t _ => t
  | .mountPoint t => t

end Winio

/-- C1: on a message-mode pipe, `Read` treats `ERROR_MORE_DATA` from the
underlying file as success, returning the bytes read with a nil error;
and whenever a `Read` returns `io.EOF`, the resulting state has the EOF
latch set, so every subsequent `Read` returns `(0, io.EOF)` without
invoking the underlying file. -/
theorem msgPipeRead_more_data_success_and_eof_latch :
    (∀ (s : Winio.MsgPipeState) (n : Nat), s.readEOF = false →
      Winio.msgPipeRead s (n, some .errMoreData) = ((n, none), s, true)) ∧
    (∀ (s : Winio.MsgPipeState) (u : Nat × Option Winio.WinErr),
      (Winio.msgPipeRead s u).1.2 = some .eof →
      ∀ u', Winio.msgPipeRead (Winio.msgPipeRead s u).2.1 u' =
        ((0, some .eof), (Winio.msgPipeRead s u).2.1, false)) := by
  constructor
  · intro s n hs
    simp [Winio.msgPipeRead, hs]
  · intro s u h u'
    by_cases hs : s.readEOF
    · simp [Winio.msgPipeRead, hs]
    · simp only [Winio.msgPipeRead, hs, Bool.false_eq_true, if_false] at h ⊢
      by_cases he : u.2 = some .eof
      · simp [he]
      · exfalso
        by_cases hm : u.2 = some .errMoreData
        · simp [he, hm] at h
        · simp [he, hm] at h

/-- Witness for C1 at concrete inputs. -/
theorem msgPipeRead_more_data_success_and_eof_latch_witness :
    Winio.msgPipeRead ⟨false, false⟩ (5, some .errMoreData) =
      ((5, none), ⟨false, false⟩, true) ∧
    Winio.msgPipeRead (Winio.msgPipeRead ⟨false, false⟩ (0, some .eof)).2.1
        (7, none) =
      ((0, some .eof), (Winio.msgPipeRead ⟨false, false⟩ (0, some .eof)).2.1,
        false) :=
  ⟨msgPipeRead_more_data_success_and_eof_latch.1 ⟨false, false⟩ 5 rfl,
   msgPipeRead_more_data_success_and_eof_latch.2 ⟨false, false⟩ (0, some .eof)
     (by decide) (7, none)⟩

/-- C2: after a successful `CloseWrite` (flush then the true zero-byte
write), the state has `writeClosed` set; from that state every `Write`,
for any buffer including the empty one, returns the `PipeWriteClosed`
error without any underlying I/O, and every further `CloseWrite` also
returns `PipeWriteClosed` without any underlying I/O. -/
theorem msgPipeCloseWrite_then_write_closed
    (s : Winio.MsgPipeState) (flushErr zeroWriteErr : Option Winio.WinErr)
    (s' : Winio.MsgPipeState) (io : Bool)
    (h : Winio.msgPipeCloseWrite s flushErr zeroWriteErr = (none, s', io)) :
    s'.writeClosed = true ∧
    (∀ (b : List Nat) (u : Nat × Option Winio.WinErr),
      Winio.msgPipeWrite s' b u = ((0, some .pipeWriteClosed), false)) ∧
    (∀ f' z', Winio.msgPipeCloseWrite s' f' z' =
      (some .pipeWriteClosed, s', false)) := by
  have hs' : s'.writeClosed = true := by
    by_cases hw : s.writeClosed
    · simp [Winio.msgPipeCloseWrite, hw] at h
    · simp only [Winio.msgPipeCloseWrite, hw, Bool.false_eq_true, if_false] at h
      cases flushErr with
      | some e => simp at h
      | none =>
        cases zeroWriteErr with
        | some e => simp at h
        | none =>
          simp at h
          rw [← h.1]
  refine ⟨hs', ?_, ?_⟩
  · intro b u
    simp [Winio.msgPipeWrite, hs']
  · intro f' z'
    simp [Winio.msgPipeCloseWrite, hs']

/-- Witness for C2 at concrete inputs. -/
theorem msgPipeCloseWrite_then_write_closed_witness :
    Winio.msgPipeCloseWrite ⟨false, false⟩ none none =
      (none, ⟨true, false⟩, true) ∧
    (⟨true, false⟩ : Winio.MsgPipeState).writeClosed = true ∧
    (∀ (b : List Nat) (u : Nat × Option Winio.WinErr),
      Winio.msgPipeWrite ⟨true, false⟩ b u = ((0, some .pipeWriteClosed), false)) ∧
    (∀ f' z', Winio.msgPipeCloseWrite ⟨true, false⟩ f' z' =
      (some .pipeWriteClosed, ⟨true, false⟩, false)) :=
  ⟨by decide,
   msgPipeCloseWrite_then_write_closed ⟨false, false⟩ none none
     ⟨true, false⟩ true (by decide)⟩

/-- C3: `Accept` never surfaces `ERROR_NO_DATA` to its caller — no list
of worker responses makes the loop return that error — and a response
carrying `ERROR_NO_DATA` makes `Accept` enqueue a fresh request and wait
for the next response, exactly as if the consumed response had never
arrived. -/
theorem acceptLoop_never_surfaces_no_data :
    (∀ (mm : Bool) (rs : List Winio.AcceptResponse),
      Winio.acceptLoop mm rs ≠ some (.failed .errNoData)) ∧
    (∀ (mm : Bool) (r : Winio.AcceptResponse) (rest : List Winio.AcceptResponse),
      r.err = some .errNoData →
      Winio.acceptLoop mm (r :: rest) = Winio.acceptLoop mm rest) := by
  constructor
  · intro mm rs
    induction rs with
    | nil => simp [Winio.acceptLoop]
    | cons r rest ih =>
      simp only [Winio.acceptLoop]
      by_cases h1 : r.hasFile = false ∧ r.err = none
      · simp [h1]
      · rw [if_neg h1]
        by_cases h2 : r.err = some .pipeListenerClosed
        · simp [h2]
        · rw [if_neg h2]
          by_cases h3 : r.err = some .errNoData
          · rw [if_pos h3]
            exact ih
          · rw [if_neg h3]
            cases he : r.err with
            | some e =>
              intro hc
              apply h3
              rw [he]
              injection hc with hc1
              injection hc1 with hc2
              rw [hc2]
            | none => simp
  · intro mm r rest h
    simp [Winio.acceptLoop, h]

/-- Witness for C3 at concrete inputs. -/
theorem acceptLoop_never_surfaces_no_data_witness :
    Winio.acceptLoop true [⟨false, some .errNoData⟩, ⟨true, none⟩] =
      Winio.acceptLoop true [⟨true, none⟩] :=
  acceptLoop_never_surfaces_no_data.2 true ⟨false, some .errNoData⟩
    [⟨true, none⟩] rfl

/-- C4: every config whose `QueueSize` is below one — including the zero
value and the nil config, which `ListenPipe` replaces by the zero
config — yields a listener with an accept queue of capacity one and
exactly one listener worker. -/
theorem listenPipeShape_coerces_low_queue_size :
    (∀ cfg : Winio.PipeConfig, cfg.queueSize < 1 →
      Winio.listenPipeShape (some cfg) = ⟨1, 1⟩) ∧
    Winio.listenPipeShape none = ⟨1, 1⟩ := by
  constructor
  · intro cfg h
    simp [Winio.listenPipeShape, h]
  · simp [Winio.listenPipeShape, Winio.zeroPipeConfig]

/-- Witness for C4 at a concrete config with the default queue size. -/
theorem listenPipeShape_coerces_low_queue_size_witness :
    Winio.listenPipeShape (some ⟨none, true, 0, 0, 0⟩) = ⟨1, 1⟩ :=
  listenPipeShape_coerces_low_queue_size.1 ⟨none, true, 0, 0, 0⟩ (by decide)

/-- C5 counterexample: with every `CreateFile` attempt failing with
`ERROR_PIPE_BUSY` and the two-second deadline expiring after three loop
iterations, the dial returns `ErrTimeout`, which is not the
`ERROR_PIPE_BUSY` error (bare or path-wrapped) — so the dial does not
return a pipe-busy error. -/
theorem dialPipe_all_busy_counterexample :
    Winio.DialPipe 0 none (fun _ => .fail .errPipeBusy) (fun _ => 3) =
      .error .timeout ∧
    Winio.WinErr.timeout ≠ .errPipeBusy ∧
    Winio.WinErr.timeout ≠ .pathError .errPipeBusy :=
  ⟨rfl, by decide, by decide⟩

/-- C5 (amended): when every attempt to open the pipe fails with
`ERROR_PIPE_BUSY` (the dialer retrying each 10 ms) until the context's
deadline expires, `tryDialPipe` returns the raw
`context.DeadlineExceeded` error, and `DialPipe` maps it to the
`ErrTimeout` error; `ERROR_PIPE_BUSY` itself is never surfaced. -/
theorem dialPipe_busy_exhaustion_yields_timeout
    (attempt : Nat → Winio.DialAttempt)
    (hbusy : ∀ i, attempt i = .fail .errPipeBusy) :
    (∀ start fuel, Winio.tryDialPipe attempt start fuel =
      .error .ctxDeadlineExceeded) ∧
    (∀ now timeout fuelOf, Winio.DialPipe now timeout attempt fuelOf =
      .error .timeout) := by
  have h1 : ∀ fuel start, Winio.tryDialPipe attempt start fuel =
      .error .ctxDeadlineExceeded := by
    intro fuel
    induction fuel with
    | zero => intro start; rfl
    | succ n ih =>
      intro start
      simp only [Winio.tryDialPipe, hbusy start]
      rw [if_pos trivial]
      exact ih (start + 1)
  refine ⟨fun start fuel => h1 fuel start, ?_⟩
  intro now timeout fuelOf
  simp only [Winio.DialPipe, h1]
  rw [if_pos trivial]

/-- Witness for C5 (amended) at concrete inputs. -/
theorem dialPipe_busy_exhaustion_yields_timeout_witness :
    Winio.tryDialPipe (fun _ => .fail .errPipeBusy) 0 2 =
      .error .ctxDeadlineExceeded ∧
    Winio.DialPipe 5 (some 100) (fun _ => .fail .errPipeBusy) (fun _ => 2) =
      .error .timeout :=
  ⟨(dialPipe_busy_exhaustion_yields_timeout _ (fun _ => rfl)).1 0 2,
   (dialPipe_busy_exhaustion_yields_timeout _ (fun _ => rfl)).2 5 (some 100)
     (fun _ => 2)⟩

/-- C6 counterexample: at a concrete address the raw `AF_HYPERV`
sockaddr image is 36 bytes long, and 36 is not 38 — the claimed total
size of 38 bytes is false. -/
theorem rawHvsockAddr_total_size_counterexample :
    (Winio.rawHvsockAddrBytes (Winio.HvsockAddr.raw
      ⟨Winio.hvguidVSockServiceTemplate,
       Winio.hvguidVSockServiceTemplate⟩)).length = 36 ∧
    (36 : Nat) ≠ 38 := by
  constructor
  · rfl
  · decide

/-- C6 (amended): the raw `AF_HYPERV` socket address consists of a
16-bit family field equal to 34, a 16-bit reserved field, the 16-byte
vm-id GUID and the 16-byte service-id GUID, and its total size is 36
bytes. -/
theorem rawHvsockAddr_layout (a : Winio.HvsockAddr)
    (h1 : a.vmID.data4.length = 8) (h2 : a.serviceID.data4.length = 8) :
    a.raw.family = 34 ∧ a.raw.reserved = 0 ∧
    Winio.rawHvsockAddrBytes a.raw =
      Winio.u16le 34 ++ Winio.u16le 0 ++
        Winio.guidBytes a.vmID ++ Winio.guidBytes a.serviceID ∧
    (Winio.guidBytes a.vmID).length = 16 ∧
    (Winio.guidBytes a.serviceID).length = 16 ∧
    (Winio.rawHvsockAddrBytes a.raw).length = 36 := by
  refine ⟨rfl, rfl, rfl, ?_, ?_, ?_⟩ <;>
    simp [Winio.rawHvsockAddrBytes, Winio.guidBytes, Winio.u16le,
      Winio.u32le, Winio.HvsockAddr.raw, Winio.afHvSock, h1, h2]

/-- Witness for C6 (amended) at a concrete address. -/
theorem rawHvsockAddr_layout_witness :
    ((Winio.hvguidVSockServiceTemplate.data4.length = 8) ∧
     ((Winio.HvsockAddr.raw ⟨Winio.hvguidVSockServiceTemplate,
        Winio.hvguidVSockServiceTemplate⟩).family = 34)) ∧
    (Winio.rawHvsockAddrBytes (Winio.HvsockAddr.raw
      ⟨Winio.hvguidVSockServiceTemplate,
       Winio.hvguidVSockServiceTemplate⟩)).length = 36 :=
  ⟨⟨by decide,
    (rawHvsockAddr_layout ⟨Winio.hvguidVSockServiceTemplate,
      Winio.hvguidVSockServiceTemplate⟩ (by decide) (by decide)).1⟩,
   (rawHvsockAddr_layout ⟨Winio.hvguidVSockServiceTemplate,
      Winio.hvguidVSockServiceTemplate⟩ (by decide) (by decide)).2.2.2.2.2⟩

/-- C7: for every port number, `VsockServiceID` returns the template
GUID 00000000-facb-11e6-bd58-64006a7986d3 with `Data1` replaced by the
port and every other field unchanged. -/
theorem vsockServiceID_is_template_with_port (port : Nat) :
    Winio.VsockServiceID port =
      { data1 := port
        data2 := Winio.hvguidVSockServiceTemplate.data2
        data3 := Winio.hvguidVSockServiceTemplate.data3
        data4 := Winio.hvguidVSockServiceTemplate.data4 } ∧
    Winio.hvguidVSockServiceTemplate.data2 = 0xfacb ∧
    Winio.hvguidVSockServiceTemplate.data3 = 0x11e6 ∧
    Winio.hvguidVSockServiceTemplate.data4 =
      [0xbd, 0x58, 0x64, 0x00, 0x6a, 0x79, 0x86, 0xd3] ∧
    Winio.hvguidVSockServiceTemplate.data1 = 0 :=
  ⟨rfl, rfl, rfl, rfl, rfl⟩

/-- C9: `DialPipe` with a nil timeout uses the absolute deadline two
seconds (2000 ms) after the call, and when the dial loop expires at that
deadline — `tryDialPipe` returning the raw `context.DeadlineExceeded` —
the call returns the `ErrTimeout` error rather than the raw context
error. -/
theorem dialPipe_nil_timeout_defaults_two_seconds :
    (∀ now, Winio.dialPipeAbsTimeout now none = now + 2000) ∧
    (∀ now (attempt : Nat → Winio.DialAttempt) (fuelOf : Nat → Nat),
      Winio.tryDialPipe attempt 0 (fuelOf (now + 2000)) =
        .error .ctxDeadlineExceeded →
      Winio.DialPipe now none attempt fuelOf = .error .timeout) := by
  constructor
  · intro now; rfl
  · intro now attempt fuelOf h
    simp only [Winio.DialPipe, Winio.dialPipeAbsTimeout]
    rw [h]
    simp

/-- Witness for C9 at concrete inputs. -/
theorem dialPipe_nil_timeout_defaults_two_seconds_witness :
    Winio.dialPipeAbsTimeout 7 none = 7 + 2000 ∧
    Winio.DialPipe 7 none (fun _ => .ok) (fun _ => 0) = .error .timeout :=
  ⟨dialPipe_nil_timeout_defaults_two_seconds.1 7,
   dialPipe_nil_timeout_defaults_two_seconds.2 7 (fun _ => .ok)
     (fun _ => 0) rfl⟩

/-- C10: `HvsockConn.SetDeadline` returns nil whatever the underlying
`SetReadDeadline`/`SetWriteDeadline` results are, while
`win32Pipe.SetDeadline` propagates a read-deadline error and otherwise
the write-deadline result. -/
theorem hvsockConnSetDeadline_always_nil :
    (∀ readRes writeRes : Option Winio.WinErr,
      Winio.hvsockConnSetDeadline readRes writeRes = none) ∧
    (∀ (e : Winio.WinErr) (writeRes : Option Winio.WinErr),
      Winio.win32PipeSetDeadline (some e) writeRes = some e) ∧
    (∀ writeRes : Option Winio.WinErr,
      Winio.win32PipeSetDeadline none writeRes = writeRes) :=
  ⟨fun _ _ => rfl, fun _ _ => rfl, fun _ => rfl⟩

/-- Parsing inverts the 16-bit little-endian serialization. -/
theorem parseU16_u16le (v : Nat) (r : List Nat) (h : v < 65536) :
    Winio.parseU16 (Winio.u16le v ++ r) = some (v, r) := by
  simp only [Winio.u16le, List.cons_append, List.nil_append, Winio.parseU16]
  have h2 : v / 256 < 256 := by omega
  rw [Nat.mod_eq_of_lt h2]
  have h3 : v % 256 + 256 * (v / 256) = v := by omega
  rw [h3]

/-- Parsing inverts the 32-bit little-endian serialization. -/
theorem parseU32_u32le (v : Nat) (r : List Nat) (h : v < 4294967296) :
    Winio.parseU32 (Winio.u32le v ++ r) = some (v, r) := by
  simp only [Winio.u32le, List.cons_append, List.nil_append, Winio.parseU32]
  have h1 : v / 16777216 < 256 := by omega
  rw [Nat.mod_eq_of_lt h1]
  have h2 : v % 256 + 256 * (v / 256 % 256) + 65536 * (v / 65536 % 256) +
      16777216 * (v / 16777216) = v := by omega
  rw [h2]

/-- UTF-16LE serialization doubles the length. -/
theorem utf16leBytes_length (us : List Nat) :
    (Winio.utf16leBytes us).length = 2 * us.length := by
  induction us with
  | nil => rfl
  | cons u us ih =>
    simp only [Winio.utf16leBytes, Winio.u16le, List.length_append,
      List.length_cons, List.length_nil, ih]
    omega

/-- UTF-16LE deserialization inverts serialization on 16-bit units. -/
theorem utf16unitsOfBytes_utf16leBytes (us : List Nat)
    (h : ∀ u ∈ us, u < 65536) :
    Winio.utf16unitsOfBytes (Winio.utf16leBytes us) = us := by
  induction us with
  | nil => rfl
  | cons u us ih =>
    have hu : u < 65536 := h u (List.mem_cons_self u us)
    show (u % 256 + 256 * (u / 256 % 256)) ::
      Winio.utf16unitsOfBytes (Winio.utf16leBytes us) = u :: us
    rw [ih (fun v hv => h v (List.mem_cons_of_mem u hv))]
    have h2 : u / 256 < 256 := by omega
    rw [Nat.mod_eq_of_lt h2]
    have h3 : u % 256 + 256 * (u / 256) = u := by omega
    rw [h3]


/-- Decoding the name fields the encoder emits (substitute name first,
print name the same bytes, offsets accordingly) recovers the code
units. -/
theorem decodeNameField_wire (nb : List Nat) (hn : nb.length % 2 = 0) :
    Winio.decodeNameField (nb ++ nb) 0 nb.length nb.length nb.length =
      some (Winio.utf16unitsOfBytes nb) := by
  unfold Winio.decodeNameField
  rw [if_neg (by simp [List.length_append])]
  by_cases hz : nb.length = 0
  · have hnil : nb = [] := List.length_eq_zero.mp hz
    subst hnil
    simp
  · rw [if_pos hz]
    rw [List.drop_zero, List.take_left]
    rw [if_pos hn]

/-- Decoding the symlink payload the encoder emits recovers the target
and the flags bit. -/
theorem decodeSymlinkPayload_wire (nb : List Nat) (flags : Nat)
    (hn : nb.length % 2 = 0) (hb : 2 * nb.length + 12 < 65536)
    (hf : flags < 4294967296) :
    Winio.decodeSymlinkPayload (12 + 2 * nb.length)
      (Winio.u16le 0 ++ (Winio.u16le nb.length ++ (Winio.u16le nb.length ++
       (Winio.u16le nb.length ++ (Winio.u32le flags ++ (nb ++ nb)))))) =
      some (.symlink (Winio.utf16unitsOfBytes nb) (flags % 2 == 1)) := by
  have h0 : (0 : Nat) < 65536 := by decide
  have hLlt : nb.length < 65536 := by omega
  have hr2 : (Winio.u16le 0 ++ (Winio.u16le nb.length ++ (Winio.u16le nb.length ++
      (Winio.u16le nb.length ++ (Winio.u32le flags ++ (nb ++ nb)))))).length =
      12 + 2 * nb.length := by
    simp [Winio.u16le, Winio.u32le, List.length_append]
    omega
  unfold Winio.decodeSymlinkPayload
  rw [hr2]
  rw [if_neg (by omega)]
  rw [parseU16_u16le _ _ h0]
  simp only [Option.bind_eq_bind, Option.some_bind]
  rw [parseU16_u16le _ _ hLlt]
  simp only [Option.bind_eq_bind, Option.some_bind]
  rw [parseU16_u16le _ _ hLlt]
  simp only [Option.bind_eq_bind, Option.some_bind]
  rw [parseU16_u16le _ _ hLlt]
  simp only [Option.bind_eq_bind, Option.some_bind]
  rw [parseU32_u32le _ _ hf]
  simp only [Option.bind_eq_bind, Option.some_bind]
  rw [Nat.add_sub_cancel_left 12 (2 * nb.length)]
  rw [List.take_of_length_le (by simp [List.length_append]; omega)]
  rw [decodeNameField_wire nb hn]
  simp only [Option.bind_eq_bind, Option.some_bind]

/-- Decoding the mount-point payload the encoder emits recovers the
target. -/
theorem decodeMountPointPayload_wire (nb : List Nat)
    (hn : nb.length % 2 = 0) (hb : 2 * nb.length + 8 < 65536) :
    Winio.decodeMountPointPayload (8 + 2 * nb.length)
      (Winio.u16le 0 ++ (Winio.u16le nb.length ++ (Winio.u16le nb.length ++
       (Winio.u16le nb.length ++ (nb ++ nb))))) =
      some (.mountPoint (Winio.utf16unitsOfBytes nb)) := by
  have h0 : (0 : Nat) < 65536 := by decide
  have hLlt : nb.length < 65536 := by omega
  have hr2 : (Winio.u16le 0 ++ (Winio.u16le nb.length ++ (Winio.u16le nb.length ++
      (Winio.u16le nb.length ++ (nb ++ nb))))).length = 8 + 2 * nb.length := by
    simp [Winio.u16le, List.length_append]
    omega
  unfold Winio.decodeMountPointPayload
  rw [hr2]
  rw [if_neg (by omega)]
  rw [parseU16_u16le _ _ h0]
  simp only [Option.bind_eq_bind, Option.some_bind]
  rw [parseU16_u16le _ _ hLlt]
  simp only [Option.bind_eq_bind, Option.some_bind]
  rw [parseU16_u16le _ _ hLlt]
  simp only [Option.bind_eq_bind, Option.some_bind]
  rw [parseU16_u16le _ _ hLlt]
  simp only [Option.bind_eq_bind, Option.some_bind]
  rw [Nat.add_sub_cancel_left 8 (2 * nb.length)]
  rw [List.take_of_length_le (by simp [List.length_append]; omega)]
  rw [decodeNameField_wire nb hn]
  simp only [Option.bind_eq_bind, Option.some_bind]


/-- Decoding a full symlink reparse buffer in the encoder's wire form
recovers the target units and the relative bit. -/
theorem decodeReparse_symlink_full (nb : List Nat) (flags : Nat)
    (hn : nb.length % 2 = 0) (hb : 2 * nb.length + 12 < 65536)
    (hf : flags < 4294967296) :
    Winio.DecodeReparsePoint
      (Winio.u32le Winio.reparseTagSymlink ++ (Winio.u16le (12 + 2 * nb.length) ++
       (Winio.u16le 0 ++ (Winio.u16le 0 ++ (Winio.u16le nb.length ++
       (Winio.u16le nb.length ++ (Winio.u16le nb.length ++ (Winio.u32le flags ++
       (nb ++ nb))))))))) =
      some (.symlink (Winio.utf16unitsOfBytes nb) (flags % 2 == 1)) := by
  have hd : 12 + 2 * nb.length < 65536 := by omega
  have h0 : (0 : Nat) < 65536 := by decide
  have key : ∀ t : Nat, t = Winio.reparseTagSymlink →
      Winio.DecodeReparsePoint
        (Winio.u32le t ++ (Winio.u16le (12 + 2 * nb.length) ++
         (Winio.u16le 0 ++ (Winio.u16le 0 ++ (Winio.u16le nb.length ++
         (Winio.u16le nb.length ++ (Winio.u16le nb.length ++ (Winio.u32le flags ++
         (nb ++ nb))))))))) =
        some (.symlink (Winio.utf16unitsOfBytes nb) (flags % 2 == 1)) := by
    intro t ht
    have h32 : t < 4294967296 := by rw [ht]; decide
    unfold Winio.DecodeReparsePoint
    rw [parseU32_u32le _ _ h32]
    simp only [Option.bind_eq_bind, Option.some_bind]
    rw [parseU16_u16le _ _ hd]
    simp only [Option.bind_eq_bind, Option.some_bind]
    rw [parseU16_u16le _ _ h0]
    simp only [Option.bind_eq_bind, Option.some_bind]
    rw [if_pos ht]
    exact decodeSymlinkPayload_wire nb flags hn hb hf
  exact key _ rfl

/-- Decoding a full mount-point reparse buffer in the encoder's wire
form recovers the target units. -/
theorem decodeReparse_mountpoint_full (nb : List Nat)
    (hn : nb.length % 2 = 0) (hb : 2 * nb.length + 8 < 65536) :
    Winio.DecodeReparsePoint
      (Winio.u32le Winio.reparseTagMountPoint ++ (Winio.u16le (8 + 2 * nb.length) ++
       (Winio.u16le 0 ++ (Winio.u16le 0 ++ (Winio.u16le nb.length ++
       (Winio.u16le nb.length ++ (Winio.u16le nb.length ++ (nb ++ nb)))))))) =
      some (.mountPoint (Winio.utf16unitsOfBytes nb)) := by
  have hd : 8 + 2 * nb.length < 65536 := by omega
  have h0 : (0 : Nat) < 65536 := by decide
  have key : ∀ t : Nat, t = Winio.reparseTagMountPoint →
      Winio.DecodeReparsePoint
        (Winio.u32le t ++ (Winio.u16le (8 + 2 * nb.length) ++
         (Winio.u16le 0 ++ (Winio.u16le 0 ++ (Winio.u16le nb.length ++
         (Winio.u16le nb.length ++ (Winio.u16le nb.length ++ (nb ++ nb)))))))) =
        some (.mountPoint (Winio.utf16unitsOfBytes nb)) := by
    intro t ht
    have h32 : t < 4294967296 := by rw [ht]; decide
    unfold Winio.DecodeReparsePoint
    rw [parseU32_u32le _ _ h32]
    simp only [Option.bind_eq_bind, Option.some_bind]
    rw [parseU16_u16le _ _ hd]
    simp only [Option.bind_eq_bind, Option.some_bind]
    rw [parseU16_u16le _ _ h0]
    simp only [Option.bind_eq_bind, Option.some_bind]
    rw [if_neg (show ¬t = Winio.reparseTagSymlink from by rw [ht]; decide)]
    rw [if_pos ht]
    exact decodeMountPointPayload_wire nb hn hb
  exact key _ rfl

/-- C8: for every reparse point — a symlink carrying a target path and
an is-relative flag, or a mount-point carrying a target path — whose
target consists of 16-bit code units and fits the format's 16-bit
length fields, decoding the encoding yields the same reparse point:
`DecodeReparsePoint (EncodeReparsePoint R) = some R`. -/
theorem decode_encode_reparse_point (rp : Winio.ReparsePoint)
    (hu : ∀ u ∈ Winio.reparseTargetUnits rp, u < 65536)
    (hlen : 4 * (Winio.reparseTargetUnits rp).length + 12 < 65536) :
    Winio.DecodeReparsePoint (Winio.EncodeReparsePoint rp) = some rp := by
  cases rp with
  | symlink target isRelative =>
    have hu2 : ∀ u ∈ target, u < 65536 := hu
    have hlen2 : 4 * target.length + 12 < 65536 := hlen
    have hL : (Winio.utf16leBytes target).length = 2 * target.length :=
      utf16leBytes_length target
    have hn : (Winio.utf16leBytes target).length % 2 = 0 := by omega
    have hb : 2 * (Winio.utf16leBytes target).length + 12 < 65536 := by omega
    have henc : Winio.EncodeReparsePoint (.symlink target isRelative) =
        Winio.u32le Winio.reparseTagSymlink ++
        (Winio.u16le (12 + 2 * (Winio.utf16leBytes target).length) ++
         (Winio.u16le 0 ++ (Winio.u16le 0 ++
          (Winio.u16le (Winio.utf16leBytes target).length ++
           (Winio.u16le (Winio.utf16leBytes target).length ++
            (Winio.u16le (Winio.utf16leBytes target).length ++
             (Winio.u32le (if isRelative then 1 else 0) ++
              (Winio.utf16leBytes target ++ Winio.utf16leBytes target)))))))) := by
      simp [Winio.EncodeReparsePoint, List.append_assoc]
    rw [henc]
    rw [decodeReparse_symlink_full _ _ hn hb (by cases isRelative <;> decide)]
    rw [utf16unitsOfBytes_utf16leBytes target hu2]
    cases isRelative <;> rfl
  | mountPoint target =>
    have hu2 : ∀ u ∈ target, u < 65536 := hu
    have hlen2 : 4 * target.length + 12 < 65536 := hlen
    have hL : (Winio.utf16leBytes target).length = 2 * target.length :=
      utf16leBytes_length target
    have hn : (Winio.utf16leBytes target).length % 2 = 0 := by omega
    have hb : 2 * (Winio.utf16leBytes target).length + 8 < 65536 := by omega
    have henc : Winio.EncodeReparsePoint (.mountPoint target) =
        Winio.u32le Winio.reparseTagMountPoint ++
        (Winio.u16le (8 + 2 * (Winio.utf16leBytes target).length) ++
         (Winio.u16le 0 ++ (Winio.u16le 0 ++
          (Winio.u16le (Winio.utf16leBytes target).length ++
           (Winio.u16le (Winio.utf16leBytes target).length ++
            (Winio.u16le (Winio.utf16leBytes target).length ++
             (Winio.utf16leBytes target ++ Winio.utf16leBytes target))))))) := by
      simp [Winio.EncodeReparsePoint, List.append_assoc]
    rw [henc]
    rw [decodeReparse_mountpoint_full _ hn hb]
    rw [utf16unitsOfBytes_utf16leBytes target hu2]
/-- Witness for C8 at a concrete symlink reparse point. -/
theorem decode_encode_reparse_point_witness :
    ((∀ u ∈ Winio.reparseTargetUnits (.symlink [67, 58, 92] false), u < 65536) ∧
     4 * (Winio.reparseTargetUnits
       (Winio.ReparsePoint.symlink [67, 58, 92] false)).length + 12 < 65536) ∧
    Winio.DecodeReparsePoint
      (Winio.EncodeReparsePoint (.symlink [67, 58, 92] false)) =
      some (.symlink [67, 58, 92] false) :=
  ⟨⟨by decide, by decide⟩,
   decode_encode_reparse_point (.symlink [67, 58, 92] false)
     (by decide) (by decide)⟩
